import Mathlib

/-!
Verification of the JVMTI breakpoint registry in
`art/runtime/openjdkjvmti/ti_breakpoint.cc`.

The registry stores a per-environment set of breakpoints.  A breakpoint is a
pair of an `art::ArtMethod*` (a pointer, modelled by its address as a `Nat`)
and a `jlocation` (a `jlong`, i.e. a signed 64-bit integer, modelled as `Int`).

The surrounding runtime (method decoding, canonicalization, code-item sizes,
declaring classes) is an external collaborator of this file's code; it is
modelled as an abstract structure of functions, so every theorem is
quantified over all possible runtimes.
-/

namespace openjdkjvmti

/-- The `jvmtiError` values returned by `BreakpointUtil::SetBreakpoint` and
`BreakpointUtil::ClearBreakpoint`: `ERR(NONE)`, `ERR(INVALID_METHODID)`,
`ERR(INVALID_LOCATION)`, `ERR(DUPLICATE)`, `ERR(NOT_FOUND)`. -/
inductive JvmtiError where
  | ok
  | invalidMethodId
  | invalidLocation
  | duplicate
  | notFound
deriving DecidableEq, Repr

/-- The type `openjdkjvmti::Breakpoint`: an `art::ArtMethod*` (modelled by its address)
together with a `jlocation` (`jlong`, modelled as `Int`).  Equality is
component-wise; the header declaring `operator==` is not among the given
sources, this follows the spec's "two Breakpoint Identities are equal iff
both components are equal". -/
structure Breakpoint where
  method : Nat
  location : Int
deriving DecidableEq, Repr

/-- Accessor `Breakpoint::GetMethod`. -/
def Breakpoint.GetMethod (b : Breakpoint) : Nat := b.method

/-- Accessor `Breakpoint::GetLocation`. -/
def Breakpoint.GetLocation (b : Breakpoint) : Int := b.location

/-- The function `std::hash<uintptr_t>` as implemented for integral types by the standard
libraries used with this code (libstdc++ / libc++): the identity cast to the
64-bit `size_t`. -/
def stdHashUintptr (x : Nat) : Nat := x % 2 ^ 64

/-- The function `std::hash<jlocation>` (`jlocation` = `jlong` = signed 64-bit): the value
converted to the 64-bit `size_t`, i.e. reduced modulo `2^64`. -/
def stdHashJlocation (x : Int) : Nat := (x % (2 ^ 64 : Int)).toNat

/-- The method `Breakpoint::hash`:
`std::hash<uintptr_t>{}(reinterpret_cast<uintptr_t>(method_)) ^
 std::hash<jlocation>{}(location_)`. -/
def Breakpoint.hash (b : Breakpoint) : Nat :=
  Nat.xor (stdHashUintptr b.method) (stdHashJlocation b.location)

/-- The runtime collaborators used by `ti_breakpoint.cc`, abstracted:
`art::jni::DecodeArtMethod` (on a non-null `jmethodID`, modelled as a
non-zero `Nat`), `ArtMethod::GetCanonicalMethod`,
`GetCodeItem()->insns_size_in_code_units_` (a `uint32_t` field, hence the
bound), and `ArtMethod::GetDeclaringClass` (the class modelled by its
address). -/
structure Runtime where
  decodeArtMethod : Nat → Nat
  getCanonicalMethod : Nat → Nat
  insnsSizeInCodeUnits : Nat → Nat
  getDeclaringClass : Nat → Nat
  insnsSize_lt : ∀ m, insnsSizeInCodeUnits m < 2 ^ 32

/-- The type `openjdkjvmti::ArtJvmTiEnv`, restricted to the field this file touches:
`breakpoints`, an unordered set of `Breakpoint`s. -/
structure ArtJvmTiEnv where
  breakpoints : Finset Breakpoint
deriving DecidableEq

/-- The canonical method a `jmethodID` resolves to:
`art::jni::DecodeArtMethod(method)->GetCanonicalMethod()`. -/
def Runtime.resolve (rt : Runtime) (method : Nat) : Nat :=
  rt.getCanonicalMethod (rt.decodeArtMethod method)

/-- The function `BreakpointUtil::SetBreakpoint`.  The null check on the `jmethodID` comes
first; then the location bounds check — note the source compares
`static_cast<uint32_t>(location)` (the value modulo `2^32`) against the
`uint32_t` bytecode length; then the insert, whose `second` component is
false exactly when an equal breakpoint is already present. -/
def SetBreakpoint (rt : Runtime) (env : ArtJvmTiEnv) (method : Nat)
    (location : Int) : JvmtiError × ArtJvmTiEnv :=
  if method = 0 then
    (.invalidMethodId, env)
  else
    let art_method := rt.resolve method
    if location < 0 ∨
        rt.insnsSizeInCodeUnits art_method ≤ (location % (2 ^ 32 : Int)).toNat then
      (.invalidLocation, env)
    else if Breakpoint.mk art_method location ∈ env.breakpoints then
      (.duplicate, env)
    else
      (.ok, ⟨insert (Breakpoint.mk art_method location) env.breakpoints⟩)

/-- The function `BreakpointUtil::ClearBreakpoint`.  Same null check and canonicalization;
then a find of the equal breakpoint, `ERR(NOT_FOUND)` when absent, erase of
the found element otherwise. -/
def ClearBreakpoint (rt : Runtime) (env : ArtJvmTiEnv) (method : Nat)
    (location : Int) : JvmtiError × ArtJvmTiEnv :=
  if method = 0 then
    (.invalidMethodId, env)
  else
    let bp := Breakpoint.mk (rt.resolve method) location
    if bp ∈ env.breakpoints then
      (.ok, ⟨env.breakpoints.erase bp⟩)
    else
      (.notFound, env)

/-- The second pass of `BreakpointUtil::RemoveBreakpointsInClass`: for each
collected breakpoint, `find` it in the set (`DCHECK(it != end())` — the
returned `Bool` is the conjunction of those checks) and erase it. -/
def erasePass : List Breakpoint → Finset Breakpoint → Finset Breakpoint × Bool
  | [], s => (s, true)
  | b :: rest, s =>
    let r := erasePass rest (s.erase b)
    (r.1, decide (b ∈ s) && r.2)

/-- An (arbitrary but computable) linear order on breakpoints, used only to
enumerate the unordered set in a definite order; `std::unordered_set`
iteration order is likewise unspecified. -/
instance : LinearOrder Breakpoint :=
  LinearOrder.lift' (fun b => toLex (b.method, b.location)) (fun a b h => by
    cases a; cases b
    simpa [Breakpoint.mk.injEq, Prod.ext_iff] using
      congrArg (fun x => ofLex x) h)

/-- The first pass of `BreakpointUtil::RemoveBreakpointsInClass`: collect into
`to_remove` every breakpoint whose method's declaring class is `klass`. -/
def collectPass (rt : Runtime) (env : ArtJvmTiEnv) (klass : Nat) :
    List Breakpoint :=
  (env.breakpoints.filter
    (fun b => rt.getDeclaringClass b.GetMethod = klass)).sort (· ≤ ·)

/-- The function `BreakpointUtil::RemoveBreakpointsInClass`: collect matching breakpoints,
then erase each by key. -/
def RemoveBreakpointsInClass (rt : Runtime) (env : ArtJvmTiEnv) (klass : Nat) :
    ArtJvmTiEnv :=
  ⟨(erasePass (collectPass rt env klass) env.breakpoints).1⟩

/-- The conjunction of the `DCHECK(it != env->breakpoints.end())` assertions
evaluated during the erase pass of `RemoveBreakpointsInClass`. -/
def removeBreakpointsDChecks (rt : Runtime) (env : ArtJvmTiEnv) (klass : Nat) :
    Bool :=
  (erasePass (collectPass rt env klass) env.breakpoints).2

/-- Modelled from the spec: `Contains(method_ref, location)` — the read-only
lookup used by the execution-dispatch collaborator; its implementation is not
among the given sources.  Per the spec it tests whether a breakpoint at this
exact (canonical method, location) identity is in the set, using the same
canonicalization as `SetBreakpoint`/`ClearBreakpoint`. -/
def Contains (rt : Runtime) (env : ArtJvmTiEnv) (method : Nat)
    (location : Int) : Bool :=
  decide (Breakpoint.mk (rt.resolve method) location ∈ env.breakpoints)

/-! ### Concrete runtimes and environments used to instantiate theorems -/

/-- A runtime where every method decodes and canonicalizes to itself, every
method has bytecode length 10 and every method is its own declaring class. -/
def rt0 : Runtime where
  decodeArtMethod := id
  getCanonicalMethod := id
  insnsSizeInCodeUnits := fun _ => 10
  getDeclaringClass := id
  insnsSize_lt := fun _ => by norm_num

/-- A runtime where every method has bytecode length 1. -/
def rtTrunc : Runtime where
  decodeArtMethod := id
  getCanonicalMethod := id
  insnsSizeInCodeUnits := fun _ => 1
  getDeclaringClass := id
  insnsSize_lt := fun _ => by norm_num

/-- A runtime where all method ids canonicalize to a single concrete method
(address 5), as with inherited/default-method aliases. -/
def rtAlias : Runtime where
  decodeArtMethod := id
  getCanonicalMethod := fun _ => 5
  insnsSizeInCodeUnits := fun _ => 10
  getDeclaringClass := id
  insnsSize_lt := fun _ => by norm_num

/-- An environment with no breakpoints. -/
def env0 : ArtJvmTiEnv := ⟨∅⟩

/-! ### Characterization lemmas -/

/-- Lemma: `SetBreakpoint` returns success exactly when the method id is non-null,
the (truncated) location is in bounds and no equal breakpoint is present. -/
lemma setBreakpoint_ok_iff (rt : Runtime) (env : ArtJvmTiEnv) (m : Nat)
    (l : Int) :
    (SetBreakpoint rt env m l).1 = .ok ↔
      m ≠ 0 ∧
      ¬(l < 0 ∨
        rt.insnsSizeInCodeUnits (rt.resolve m) ≤ (l % (2 ^ 32 : Int)).toNat) ∧
      Breakpoint.mk (rt.resolve m) l ∉ env.breakpoints := by
  simp only [SetBreakpoint]
  split_ifs with h1 h2 h3 <;> simp_all

/-- On success, `SetBreakpoint` inserts exactly the breakpoint at the
canonical method and the given location. -/
lemma setBreakpoint_ok_result (rt : Runtime) (env : ArtJvmTiEnv) (m : Nat)
    (l : Int) (h : (SetBreakpoint rt env m l).1 = .ok) :
    (SetBreakpoint rt env m l).2 =
      ⟨insert (Breakpoint.mk (rt.resolve m) l) env.breakpoints⟩ := by
  obtain ⟨h1, h2, h3⟩ := (setBreakpoint_ok_iff rt env m l).mp h
  simp only [SetBreakpoint, if_neg h1, if_neg h2, if_neg h3]

/-- Lemma: `ClearBreakpoint` on a non-null method id: erase on a hit, `NOT_FOUND`
on a miss. -/
lemma clearBreakpoint_eq (rt : Runtime) (env : ArtJvmTiEnv) (m : Nat)
    (l : Int) (hm : m ≠ 0) :
    ClearBreakpoint rt env m l =
      if Breakpoint.mk (rt.resolve m) l ∈ env.breakpoints then
        (.ok, ⟨env.breakpoints.erase (Breakpoint.mk (rt.resolve m) l)⟩)
      else
        (.notFound, env) := by
  simp [ClearBreakpoint, hm]

/-- Lemma: `SetBreakpoint` either leaves the environment untouched or succeeds. -/
lemma setBreakpoint_snd (rt : Runtime) (env : ArtJvmTiEnv) (m : Nat)
    (l : Int) :
    (SetBreakpoint rt env m l).2 = env ∨ (SetBreakpoint rt env m l).1 = .ok := by
  simp only [SetBreakpoint]
  split_ifs <;> simp

/-- Lemma: `ClearBreakpoint` either leaves the environment untouched or succeeds. -/
lemma clearBreakpoint_snd (rt : Runtime) (env : ArtJvmTiEnv) (m : Nat)
    (l : Int) :
    (ClearBreakpoint rt env m l).2 = env ∨
      (ClearBreakpoint rt env m l).1 = .ok := by
  simp only [ClearBreakpoint]
  split_ifs <;> simp

/-- Lemma: `SetBreakpoint` on a non-null method id returns `INVALID_LOCATION`
exactly when the location is negative or its low 32 bits reach the
bytecode length. -/
lemma setBreakpoint_invalidLocation_iff (rt : Runtime) (env : ArtJvmTiEnv)
    (m : Nat) (l : Int) (hm : m ≠ 0) :
    (SetBreakpoint rt env m l).1 = .invalidLocation ↔
      l < 0 ∨
        rt.insnsSizeInCodeUnits (rt.resolve m) ≤ (l % (2 ^ 32 : Int)).toNat := by
  simp only [SetBreakpoint, if_neg hm]
  split_ifs with h2 h3 <;> simp_all

/-- Lemma: `Breakpoint.hash` on a non-negative (pointer-representable) location is
the XOR of the components reduced modulo `2^64`. -/
lemma breakpoint_hash_natCast (a b : Nat) :
    Breakpoint.hash ⟨a, (b : Int)⟩ = Nat.xor (a % 2 ^ 64) (b % 2 ^ 64) := by
  simp only [Breakpoint.hash, stdHashUintptr, stdHashJlocation]
  congr 1

/-- Running the erase pass on a duplicate-free list of keys that are all
present removes exactly those keys, and every `find` along the way hits. -/
lemma erasePass_eq (l : List Breakpoint) :
    ∀ s : Finset Breakpoint, l.Nodup → (∀ b ∈ l, b ∈ s) →
      erasePass l s = (s \ l.toFinset, true) := by
  induction l with
  | nil =>
    intro s _ _
    simp [erasePass]
  | cons b rest ih =>
    intro s hnd hsub
    have hb : b ∈ s := hsub b (List.mem_cons_self b rest)
    have hbrest : b ∉ rest := (List.nodup_cons.mp hnd).1
    have hsub' : ∀ x ∈ rest, x ∈ s.erase b := by
      intro x hx
      exact Finset.mem_erase.mpr
        ⟨fun hxb => hbrest (hxb ▸ hx), hsub x (List.mem_cons_of_mem _ hx)⟩
    have key : s.erase b \ rest.toFinset = s \ (b :: rest).toFinset := by
      ext x
      simp only [Finset.mem_sdiff, Finset.mem_erase, List.toFinset_cons,
        Finset.mem_insert, List.mem_toFinset]
      tauto
    simp [erasePass, ih (s.erase b) (List.nodup_cons.mp hnd).2 hsub', key, hb]

/-- Lemma: `RemoveBreakpointsInClass` computes the set difference with the matching
breakpoints, and every internal `DCHECK` holds. -/
lemma removeBreakpoints_run (rt : Runtime) (env : ArtJvmTiEnv) (klass : Nat) :
    erasePass (collectPass rt env klass) env.breakpoints =
      (env.breakpoints \
        env.breakpoints.filter
          (fun b => rt.getDeclaringClass b.GetMethod = klass), true) := by
  have hnd : (collectPass rt env klass).Nodup := Finset.sort_nodup _ _
  have hsub : ∀ b ∈ collectPass rt env klass, b ∈ env.breakpoints := by
    intro b hb
    exact (Finset.mem_filter.mp ((Finset.mem_sort _).mp hb)).1
  have htf : (collectPass rt env klass).toFinset =
      env.breakpoints.filter
        (fun b => rt.getDeclaringClass b.GetMethod = klass) := by
    simp [collectPass, Finset.sort_toFinset]
  rw [erasePass_eq _ _ hnd hsub, htf]

/-! ### Claim theorems -/

/-- C1 counterexample: with bytecode length 1, the location `2^32` is at or
above the bytecode length, yet `SetBreakpoint` succeeds instead of returning
`InvalidLocation` — the source compares `static_cast<uint32_t>(location)`,
and `2^32` truncates to `0`. -/
theorem setBreakpoint_trunc_cex :
    (rtTrunc.insnsSizeInCodeUnits (rtTrunc.resolve 1) : Int) ≤ 2 ^ 32 ∧
    (SetBreakpoint rtTrunc env0 1 (2 ^ 32)).1 = JvmtiError.ok := by
  constructor
  · norm_num [rtTrunc, Runtime.resolve]
  · decide

/-- C1 (amended): for a non-null method id resolving to bytecode length `N`,
`SetBreakpoint` returns `InvalidLocation` iff `l < 0` or the location
truncated to its low 32 bits is `≥ N` (so the stated iff holds for
`0 ≤ l < 2^32` but not for `l ≥ 2^32`); in particular `SetBreakpoint(m, -1)`
and `SetBreakpoint(m, N)` return `InvalidLocation`, and when `N ≥ 1` and no
equal breakpoint exists, `SetBreakpoint(m, N-1)` succeeds. -/
theorem setBreakpoint_location_bounds (rt : Runtime) (env : ArtJvmTiEnv)
    (m : Nat) (l : Int) (hm : m ≠ 0) :
    ((SetBreakpoint rt env m l).1 = .invalidLocation ↔
      l < 0 ∨
        rt.insnsSizeInCodeUnits (rt.resolve m) ≤ (l % (2 ^ 32 : Int)).toNat) ∧
    (SetBreakpoint rt env m (-1)).1 = .invalidLocation ∧
    (SetBreakpoint rt env m
      (rt.insnsSizeInCodeUnits (rt.resolve m) : Int)).1 = .invalidLocation ∧
    (1 ≤ rt.insnsSizeInCodeUnits (rt.resolve m) →
      Breakpoint.mk (rt.resolve m)
          ((rt.insnsSizeInCodeUnits (rt.resolve m) : Int) - 1) ∉
        env.breakpoints →
      (SetBreakpoint rt env m
        ((rt.insnsSizeInCodeUnits (rt.resolve m) : Int) - 1)).1 = .ok) := by
  have hN := rt.insnsSize_lt (rt.resolve m)
  refine ⟨setBreakpoint_invalidLocation_iff rt env m l hm, ?_, ?_, ?_⟩
  · rw [setBreakpoint_invalidLocation_iff rt env m (-1) hm]
    left
    norm_num
  · rw [setBreakpoint_invalidLocation_iff rt env m _ hm]
    right
    omega
  · intro h1 hnotin
    exact (setBreakpoint_ok_iff rt env m _).mpr ⟨hm, by omega, hnotin⟩

/-- C1 witness: with every bytecode length 10, `SetBreakpoint` at location
`-1` returns `InvalidLocation`. -/
theorem setBreakpoint_location_bounds_witness :
    (SetBreakpoint rt0 env0 1 (-1)).1 = JvmtiError.invalidLocation :=
  (setBreakpoint_location_bounds rt0 env0 1 5 (by decide)).2.1

/-- C2 counterexample: there is no input pair on which swapping the method
and location components changes `Breakpoint.hash` — the XOR combination is
commutative, so every swap collides. -/
theorem breakpoint_hash_swap_cex :
    ¬ ∃ a b : Nat,
      Breakpoint.hash ⟨a, (b : Int)⟩ ≠ Breakpoint.hash ⟨b, (a : Int)⟩ := by
  rintro ⟨a, b, h⟩
  exact h (by rw [breakpoint_hash_natCast, breakpoint_hash_natCast]
              exact Nat.xor_comm _ _)

/-- C2 (amended): `Breakpoint::hash` combines the two component hashes with
XOR, a commutative combination: swapping the method and location components
always yields the same hash value. -/
theorem breakpoint_hash_swap_collides (a b : Nat) :
    Breakpoint.hash ⟨a, (b : Int)⟩ = Breakpoint.hash ⟨b, (a : Int)⟩ := by
  rw [breakpoint_hash_natCast, breakpoint_hash_natCast]
  exact Nat.xor_comm _ _

/-- C3: whenever `SetBreakpoint` or `ClearBreakpoint` returns an error
(anything other than success), the breakpoint set is left exactly as it was
before the call. -/
theorem setClear_error_no_mutation (rt : Runtime) (env : ArtJvmTiEnv)
    (m : Nat) (l : Int) :
    ((SetBreakpoint rt env m l).1 ≠ .ok → (SetBreakpoint rt env m l).2 = env) ∧
    ((ClearBreakpoint rt env m l).1 ≠ .ok →
      (ClearBreakpoint rt env m l).2 = env) := by
  constructor
  · intro h
    rcases setBreakpoint_snd rt env m l with h2 | h2
    · exact h2
    · exact absurd h2 h
  · intro h
    rcases clearBreakpoint_snd rt env m l with h2 | h2
    · exact h2
    · exact absurd h2 h

/-- C3 witness: a failing `SetBreakpoint` and a failing `ClearBreakpoint`
(null method id) leave the empty environment unchanged. -/
theorem setClear_error_no_mutation_witness :
    (SetBreakpoint rt0 env0 0 0).2 = env0 ∧
    (ClearBreakpoint rt0 env0 0 0).2 = env0 :=
  ⟨(setClear_error_no_mutation rt0 env0 0 0).1 (by decide),
   (setClear_error_no_mutation rt0 env0 0 0).2 (by decide)⟩

/-- C8: on a method id that does not resolve to a live method (the null id),
both `SetBreakpoint` and `ClearBreakpoint` return `InvalidMethod` — no other
error — and the breakpoint set is untouched (the null check precedes the
location validation and any mutation). -/
theorem invalidMethod_first (rt : Runtime) (env : ArtJvmTiEnv) (m : Nat)
    (l : Int) (hm : m = 0) :
    SetBreakpoint rt env m l = (.invalidMethodId, env) ∧
    ClearBreakpoint rt env m l = (.invalidMethodId, env) := by
  subst hm
  constructor <;> rfl

/-- C8 witness: the null method id at location 3. -/
theorem invalidMethod_first_witness :
    SetBreakpoint rt0 env0 0 3 = (JvmtiError.invalidMethodId, env0) :=
  (invalidMethod_first rt0 env0 0 3 rfl).1

/-- C4: after a successful `SetBreakpoint(m, l)`, an identical second call
returns `Duplicate` and leaves the environment (hence the set size)
unchanged; in general, on a resolving method and valid location,
`SetBreakpoint` returns `Duplicate` exactly when an identity equal to
(canonical method, location) is already in the set. -/
theorem setBreakpoint_duplicate (rt : Runtime) (env : ArtJvmTiEnv) (m : Nat)
    (l : Int) (hok : (SetBreakpoint rt env m l).1 = .ok) :
    (SetBreakpoint rt (SetBreakpoint rt env m l).2 m l).1 = .duplicate ∧
    (SetBreakpoint rt (SetBreakpoint rt env m l).2 m l).2 =
      (SetBreakpoint rt env m l).2 ∧
    (SetBreakpoint rt (SetBreakpoint rt env m l).2 m l).2.breakpoints.card =
      (SetBreakpoint rt env m l).2.breakpoints.card ∧
    ∀ env' : ArtJvmTiEnv,
      ((SetBreakpoint rt env' m l).1 = .duplicate ↔
        Breakpoint.mk (rt.resolve m) l ∈ env'.breakpoints) := by
  obtain ⟨h1, h2, _⟩ := (setBreakpoint_ok_iff rt env m l).mp hok
  have hres := setBreakpoint_ok_result rt env m l hok
  have hdup : ∀ env' : ArtJvmTiEnv,
      (SetBreakpoint rt env' m l).1 = .duplicate ↔
        Breakpoint.mk (rt.resolve m) l ∈ env'.breakpoints := by
    intro env'
    simp only [SetBreakpoint, if_neg h1, if_neg h2]
    split_ifs with h <;> simp [h]
  have hmem : Breakpoint.mk (rt.resolve m) l ∈
      (SetBreakpoint rt env m l).2.breakpoints := by
    rw [hres]
    exact Finset.mem_insert_self _ _
  have hsnd : (SetBreakpoint rt (SetBreakpoint rt env m l).2 m l).2 =
      (SetBreakpoint rt env m l).2 := by
    rw [hres]
    have hmem' : Breakpoint.mk (rt.resolve m) l ∈
        (⟨insert (Breakpoint.mk (rt.resolve m) l) env.breakpoints⟩ :
          ArtJvmTiEnv).breakpoints := Finset.mem_insert_self _ _
    simp only [SetBreakpoint, if_neg h1, if_neg h2, if_pos hmem']
  exact ⟨(hdup _).mpr hmem, hsnd, by rw [hsnd], hdup⟩

/-- C4 witness: setting at (method 1, location 5) twice on the empty
environment yields `Duplicate` the second time. -/
theorem setBreakpoint_duplicate_witness :
    (SetBreakpoint rt0 (SetBreakpoint rt0 env0 1 5).2 1 5).1 =
      JvmtiError.duplicate :=
  (setBreakpoint_duplicate rt0 env0 1 5 (by decide)).1

/-- C5: a successful `SetBreakpoint(m, l)` followed by
`ClearBreakpoint(m, l)` succeeds and returns the environment exactly to its
prior state, and `Contains(m, l)` on the result is false. -/
theorem set_clear_roundTrip (rt : Runtime) (env : ArtJvmTiEnv) (m : Nat)
    (l : Int) (hok : (SetBreakpoint rt env m l).1 = .ok) :
    (ClearBreakpoint rt (SetBreakpoint rt env m l).2 m l).1 = .ok ∧
    (ClearBreakpoint rt (SetBreakpoint rt env m l).2 m l).2 = env ∧
    Contains rt (ClearBreakpoint rt (SetBreakpoint rt env m l).2 m l).2 m l =
      false := by
  obtain ⟨h1, _, h3⟩ := (setBreakpoint_ok_iff rt env m l).mp hok
  have hres := setBreakpoint_ok_result rt env m l hok
  have hclear : ClearBreakpoint rt (SetBreakpoint rt env m l).2 m l =
      (.ok, env) := by
    rw [hres, clearBreakpoint_eq rt _ m l h1]
    simp [Finset.mem_insert_self, Finset.erase_insert h3]
  rw [hclear]
  simp [Contains, h3]

/-- C5 witness: set then clear at (method 1, location 5) on the empty
environment returns it to empty. -/
theorem set_clear_roundTrip_witness :
    (ClearBreakpoint rt0 (SetBreakpoint rt0 env0 1 5).2 1 5).2 = env0 :=
  (set_clear_roundTrip rt0 env0 1 5 (by decide)).2.1

/-- C7: `SetBreakpoint` and `ClearBreakpoint` canonicalize the supplied
method id the same way: a breakpoint set through alias `a` is successfully
cleared through alias `b` whenever both resolve to the same canonical
method, restoring the prior environment. -/
theorem canonical_alias_set_clear (rt : Runtime) (env : ArtJvmTiEnv)
    (a b : Nat) (l : Int) (hb : b ≠ 0) (hcanon : rt.resolve a = rt.resolve b)
    (hok : (SetBreakpoint rt env a l).1 = .ok) :
    (ClearBreakpoint rt (SetBreakpoint rt env a l).2 b l).1 = .ok ∧
    (ClearBreakpoint rt (SetBreakpoint rt env a l).2 b l).2 = env := by
  obtain ⟨_, _, h3⟩ := (setBreakpoint_ok_iff rt env a l).mp hok
  have hres := setBreakpoint_ok_result rt env a l hok
  have hclear : ClearBreakpoint rt (SetBreakpoint rt env a l).2 b l =
      (.ok, env) := by
    rw [hres, clearBreakpoint_eq rt _ b l hb, ← hcanon]
    simp [Finset.mem_insert_self, Finset.erase_insert h3]
  rw [hclear]
  exact ⟨rfl, rfl⟩

/-- C7 witness: with all method ids canonicalizing to method 5, a breakpoint
set through id 1 is cleared through id 2. -/
theorem canonical_alias_set_clear_witness :
    (ClearBreakpoint rtAlias (SetBreakpoint rtAlias env0 1 7).2 2 7).1 =
      JvmtiError.ok :=
  (canonical_alias_set_clear rtAlias env0 1 2 7 (by decide) (by decide)
    (by decide)).1

/-- C9: on a resolving (non-null) method id, `ClearBreakpoint` returns
`NotFound` exactly when no identity equal to (canonical method, location) is
in the set; when one is present it returns success and removes exactly that
identity. -/
theorem clearBreakpoint_notFound_iff (rt : Runtime) (env : ArtJvmTiEnv)
    (m : Nat) (l : Int) (hm : m ≠ 0) :
    ((ClearBreakpoint rt env m l).1 = .notFound ↔
      Breakpoint.mk (rt.resolve m) l ∉ env.breakpoints) ∧
    (Breakpoint.mk (rt.resolve m) l ∈ env.breakpoints →
      (ClearBreakpoint rt env m l).1 = .ok ∧
      (ClearBreakpoint rt env m l).2.breakpoints =
        env.breakpoints.erase (Breakpoint.mk (rt.resolve m) l)) := by
  rw [clearBreakpoint_eq rt env m l hm]
  split_ifs with h <;> simp [h]

/-- C9 witness: clearing on the empty environment reports `NotFound`. -/
theorem clearBreakpoint_notFound_iff_witness :
    (ClearBreakpoint rt0 env0 1 5).1 = JvmtiError.notFound ↔
      Breakpoint.mk (rt0.resolve 1) 5 ∉ env0.breakpoints :=
  (clearBreakpoint_notFound_iff rt0 env0 1 5 (by decide)).1

/-- C6: `RemoveBreakpointsInClass` removes exactly the breakpoints whose
method's declaring class is the given class and keeps every other
breakpoint; it is a total function (it cannot fail), and when nothing
matches the set is unchanged, since the membership condition then coincides
with membership in the original set. -/
theorem removeBreakpointsInClass_mem (rt : Runtime) (env : ArtJvmTiEnv)
    (klass : Nat) (b : Breakpoint) :
    b ∈ (RemoveBreakpointsInClass rt env klass).breakpoints ↔
      b ∈ env.breakpoints ∧ rt.getDeclaringClass b.GetMethod ≠ klass := by
  simp only [RemoveBreakpointsInClass, removeBreakpoints_run,
    Finset.mem_sdiff, Finset.mem_filter]
  tauto

/-- C10: in `RemoveBreakpointsInClass`, every breakpoint collected in the
first pass is still present when the second pass looks it up — all
`DCHECK(it != env->breakpoints.end())` assertions hold — and each erase
removes exactly one element: the final size plus the number of collected
breakpoints equals the initial size. -/
theorem removeBreakpoints_dchecks_hold (rt : Runtime) (env : ArtJvmTiEnv)
    (klass : Nat) :
    removeBreakpointsDChecks rt env klass = true ∧
    (RemoveBreakpointsInClass rt env klass).breakpoints.card +
      (collectPass rt env klass).length = env.breakpoints.card := by
  constructor
  · simp [removeBreakpointsDChecks, removeBreakpoints_run]
  · have hlen : (collectPass rt env klass).length =
        (env.breakpoints.filter
          (fun b => rt.getDeclaringClass b.GetMethod = klass)).card := by
      simp [collectPass, Finset.length_sort]
    simp only [RemoveBreakpointsInClass, removeBreakpoints_run, hlen]
    rw [Finset.card_sdiff (Finset.filter_subset _ _)]
    exact Nat.sub_add_cancel (Finset.card_filter_le _ _)

end openjdkjvmti
